import Mathlib

/-!
Verification of the zeroconf-service repository (`src/main.py`) against its
natural-language specification.

The development shallowly embeds the program:

* `PyVal` models the Python values that `json.loads` can produce (JSON
  numeric literals are modelled as integers; every input exercised by the
  claims is integer-valued, and no claim depends on non-integral numerals).
* `ServiceConfig` mirrors the dataclass of the same name; since Python
  dataclasses perform no runtime type checking, every field holds a `PyVal`.
* `FileContent` classifies the state of the configuration path as seen
  through the standard-library stack (`Path.read_text` / `json.loads`),
  which is an external collaborator: the file is absent
  (`FileNotFoundError`), its bytes are not valid UTF-8
  (`UnicodeDecodeError` from `read_text`), it decodes but `json.loads`
  raises `JSONDecodeError`, or it parses to a `PyVal`.
* `load_config` mirrors the function of the same name, returning the
  configuration together with the effect on the file (`FileOutcome`) or the
  exception that escapes it.
* `ZeroconfService` mirrors the manager class: the fields model `_info`,
  whether `_stop_event` is set, whether `_thread` was started and whether it
  has exited, and whether the `Zeroconf` handle was closed.  `spawns` is a
  ghost counter of how many times a background loop was actually spawned.
  Python thread semantics used: `Thread.is_alive()` is true iff the thread
  was started and has not yet exited; `Thread.start()` on a thread that was
  already started (alive or finished) raises `RuntimeError`;
  `Thread.join()` before `start()` raises `RuntimeError`, and once the stop
  event is set the loop is guaranteed to exit, so `join` returns and the
  thread is finished.
* `service_loop` mirrors `_service_loop` as a trace interpreter.  The loop
  runs concurrently with callers of `update_info`, so it is parametrised by
  the environment: `info t` is the value of the shared `self._info` slot at
  the loop's `t`-th read of that slot (each of the three engine-call sites
  reads the slot separately), `n` is the number of times the
  `stop_event.is_set()` check returns false before it returns true, and
  `fail j` says whether the loop's `j`-th engine call raises
  (register/unregister failure).  The result is the emitted event trace and
  whether the loop died from an unhandled engine exception.
-/

/-- Python values producible by `json.loads` (numerals modelled as `Int`). -/
inductive PyVal : Type where
  | str (s : String)
  | int (n : Int)
  | bool (b : Bool)
  | none
  | list (xs : List PyVal)
  | dict (kvs : List (String × PyVal))

/-- Exceptions relevant to the program. -/
inductive PyErr : Type where
  | typeError
  | jsonDecodeError
  | unicodeDecodeError
  | fileNotFoundError
  | runtimeError
deriving DecidableEq, Repr

mutual
/-- Python `str()` as invoked by the f-string in `main`; exact on the scalar
values the claims exercise, an approximate rendering for containers (no
claim depends on the container cases). -/
def pyStr : PyVal → String
  | .str s => s
  | .int n => toString n
  | .bool b => cond b "True" "False"
  | .none => "None"
  | .list xs => "[" ++ pyStrSeq xs ++ "]"
  | .dict kvs => "\x7b" ++ pyStrPairs kvs ++ "\x7d"

/-- Comma-separated rendering of a list of values (helper for `pyStr`). -/
def pyStrSeq : List PyVal → String
  | [] => ""
  | [v] => pyStr v
  | v :: rest => pyStr v ++ ", " ++ pyStrSeq rest

/-- Comma-separated rendering of key/value pairs (helper for `pyStr`). -/
def pyStrPairs : List (String × PyVal) → String
  | [] => ""
  | [(k, v)] => k ++ ": " ++ pyStr v
  | (k, v) :: rest => k ++ ": " ++ pyStr v ++ ", " ++ pyStrPairs rest
end

/-- Python truthiness of a loaded value (`if config.name`). -/
def pyTruthy : PyVal → Bool
  | .str s => !s.isEmpty
  | .int n => n != 0
  | .bool b => b
  | .none => false
  | .list xs => !xs.isEmpty
  | .dict kvs => !kvs.isEmpty

/-- The dataclass `ServiceConfig`.  Python dataclasses do not check field
types at runtime, so each field holds whatever `PyVal` the file supplied. -/
structure ServiceConfig : Type where
  type : PyVal
  name : PyVal
  port : PyVal
  properties : PyVal
  interval : PyVal

/-- `ServiceConfig()` with all defaults.  The `name` default is computed
from `socket.gethostname()` at module load, so it is parametrised by the
hostname `H`. -/
def ServiceConfig.default (H : String) : ServiceConfig :=
  { type := .str "_http._tcp.local."
  , name := .str (H ++ "._http._tcp.local.")
  , port := .int 8080
  , properties := .dict []
  , interval := .int 60 }

/-- The dataclass field names, in declaration order. -/
def fieldNames : List String := ["type", "name", "port", "properties", "interval"]

/-- Keyword-argument lookup with a default (`ServiceConfig(**d)` takes the
dict's value when the key is present, the dataclass default otherwise). -/
def lookupD (kvs : List (String × PyVal)) (k : String) (dflt : PyVal) : PyVal :=
  match List.lookup k kvs with
  | some v => v
  | Option.none => dflt

/-- `ServiceConfig(**v)`: raises `TypeError` unless `v` is a dict whose keys
are all dataclass field names; otherwise builds the config, taking each
present key's value verbatim (no type validation). -/
def ServiceConfig.ofKwargs (H : String) (v : PyVal) : Except PyErr ServiceConfig :=
  match v with
  | .dict kvs =>
      if kvs.all (fun kv => fieldNames.contains kv.1) then
        .ok { type := lookupD kvs "type" (.str "_http._tcp.local.")
            , name := lookupD kvs "name" (.str (H ++ "._http._tcp.local."))
            , port := lookupD kvs "port" (.int 8080)
            , properties := lookupD kvs "properties" (.dict [])
            , interval := lookupD kvs "interval" (.int 60) }
      else .error .typeError
  | _ => .error .typeError

/-- `asdict(config)`: the dataclass as a dict in field-declaration order. -/
def asdictVal (c : ServiceConfig) : PyVal :=
  .dict [("type", c.type), ("name", c.name), ("port", c.port),
         ("properties", c.properties), ("interval", c.interval)]

/-- Classification of the configuration path's state by the external
filesystem/codec/parser stack: absent (`FileNotFoundError` on read), bytes
not valid UTF-8 (`UnicodeDecodeError` from `read_text`), decodes to `raw`
but `json.loads` raises `JSONDecodeError`, or parses to the value `v` (a
Python dict has unique keys, so a `parsed (.dict kvs)` carries a key-unique
association list). -/
inductive FileContent : Type where
  | absent
  | undecodable
  | malformed (raw : String)
  | parsed (v : PyVal)

/-- Effect of `load_config` on the file: untouched, or written with
`json.dumps(v, indent = i)`. -/
inductive FileOutcome : Type where
  | unchanged
  | written (v : PyVal) (indent : Nat)

/-- Boolean success test for `Except`. -/
def isOkB {ε α : Type} : Except ε α → Bool
  | .ok _ => true
  | .error _ => false

/-- Embedding of `load_config`.  Mirrors the `try/except` structure:
`FileNotFoundError` synthesises defaults and writes them back
(`json.dumps(asdict(config), indent=4)`); `TypeError` (wrong-shape kwargs)
and `json.JSONDecodeError` fall back to defaults in memory; any other
exception — in particular `UnicodeDecodeError` from `read_text` — escapes. -/
def load_config (H : String) (fc : FileContent) :
    Except PyErr (ServiceConfig × FileOutcome) :=
  match fc with
  | .absent =>
      .ok (ServiceConfig.default H,
           .written (asdictVal (ServiceConfig.default H)) 4)
  | .undecodable => .error .unicodeDecodeError
  | .malformed _ => .ok (ServiceConfig.default H, .unchanged)
  | .parsed v =>
      match ServiceConfig.ofKwargs H v with
      | .ok c => .ok (c, .unchanged)
      | .error _ => .ok (ServiceConfig.default H, .unchanged)

/-- The slice of `main` that determines the descriptor name handed to
`ServiceInfo`: after loading, `config.name = config.name if config.name
else f"{hostname}.{config.type}"`. -/
def mainName (H : String) (fc : FileContent) : Except PyErr PyVal :=
  match load_config H fc with
  | .error e => .error e
  | .ok (c, _) =>
      .ok (if pyTruthy c.name then c.name else .str (H ++ "." ++ pyStr c.type))

/-- The spec's data-model constraint on the port: an integer in 1–65535. -/
def portOk : PyVal → Bool
  | .int n => decide (1 ≤ n ∧ n ≤ 65535)
  | _ => false

/-- The spec's data-model constraint on the refresh interval: a number
strictly greater than 0. -/
def intervalOk : PyVal → Bool
  | .int n => decide (0 < n)
  | _ => false

/-- Observable events of the background loop, over descriptor type `D`:
the info-level "Update service registration" log line, the two engine
calls (each recording the descriptor argument), and an error-level log
record (the alphabet contains it so that its absence is expressible; the
code never emits one). -/
inductive LoopEvent (D : Type) : Type where
  | logUpdate
  | unregisterCall (d : D)
  | registerCall (d : D)
  | logError
deriving DecidableEq, Repr

/-- Embedding of `ZeroconfService._service_loop` as a trace interpreter.
The environment supplies `fail j` (whether the loop's `j`-th engine call
raises) and `info t` (the value of the shared `self._info` slot at the
loop's `t`-th read of it; each engine-call site reads the slot afresh).
The first argument of the recursion is the stop schedule: with value
`n+1` the current `stop_event.is_set()` check returns false and a cycle
runs (log, unregister, register, then `stop_event.wait(interval)`); with
value `0` the check returns true, the loop exits and performs the final
unregister of line 54.  A raising engine call ends the thread at once:
the trace stops at that call and the second component is `true`. -/
def service_loop {D : Type} (fail : Nat → Bool) (info : Nat → D) :
    Nat → Nat → Nat → List (LoopEvent D) × Bool
  | 0, t, k => ([.unregisterCall (info t)], fail k)
  | n + 1, t, k =>
      if fail k then
        ([.logUpdate, .unregisterCall (info t)], true)
      else if fail (k + 1) then
        ([.logUpdate, .unregisterCall (info t), .registerCall (info (t + 1))], true)
      else
        let r := service_loop fail info n (t + 2) (k + 2)
        (.logUpdate :: .unregisterCall (info t) :: .registerCall (info (t + 1)) :: r.1,
         r.2)

/-- The loop's trace in an execution where no engine call fails and the
stop signal is observed at the `n`-th check. -/
def refreshTrace {D : Type} (info : Nat → D) (n : Nat) : List (LoopEvent D) :=
  (service_loop (fun _ => false) info n 0 0).1

/-- The protocol-engine calls of a trace, log records dropped. -/
def engineCalls {D : Type} (tr : List (LoopEvent D)) : List (LoopEvent D) :=
  tr.filter fun e =>
    match e with
    | .unregisterCall _ => true
    | .registerCall _ => true
    | _ => false

/-- The claim C1 shape predicate: the call sequence is a repetition of
cycles, each an `unregister` immediately followed by a `register` of the
same descriptor, ended by exactly one final `unregister`. -/
def sameDescCyclesThenFinal {D : Type} [DecidableEq D] : List (LoopEvent D) → Bool
  | [LoopEvent.unregisterCall _] => true
  | LoopEvent.unregisterCall a :: LoopEvent.registerCall b :: rest =>
      a == b && sameDescCyclesThenFinal rest
  | _ => false

/-- The descriptor pairs read by the loop's successive cycles: cycle `i`
reads the slot at `t + 2*i` for its unregister and at `t + 2*i + 1` for
its register. -/
def pairsFrom {D : Type} (info : Nat → D) : Nat → Nat → List (D × D)
  | 0, _ => []
  | n + 1, t => (info t, info (t + 1)) :: pairsFrom info n (t + 2)

/-- Engine-call pattern of a run: for each pair an unregister immediately
followed by a register, then exactly one final unregister. -/
def cyclePattern {D : Type} : List (D × D) → D → List (LoopEvent D)
  | [], dLast => [.unregisterCall dLast]
  | (a, b) :: rest, dLast =>
      .unregisterCall a :: .registerCall b :: cyclePattern rest dLast

/-- Flattened unregister/register pairs (helper for decomposing
`cyclePattern` around an append). -/
def flatCycles {D : Type} : List (D × D) → List (LoopEvent D)
  | [] => []
  | (a, b) :: rest => .unregisterCall a :: .registerCall b :: flatCycles rest

/-- State of a `ZeroconfService` instance over descriptor type `D`:
`info` is `self._info`, `stop_event` whether `self._stop_event` is set,
`thread_started`/`thread_finished` the lifecycle of `self._thread`
(alive iff started and not finished), `zeroconf_closed` whether the
`Zeroconf` handle was closed, and `spawns` a ghost counter of background
loops actually spawned. -/
structure ZeroconfService (D : Type) : Type where
  info : D
  stop_event : Bool := false
  thread_started : Bool := false
  thread_finished : Bool := false
  zeroconf_closed : Bool := false
  spawns : Nat := 0
deriving DecidableEq, Repr

namespace ZeroconfService

/-- `is_alive`: delegates to `Thread.is_alive()` — started, not exited. -/
def is_alive {D : Type} (m : ZeroconfService D) : Bool :=
  m.thread_started && !m.thread_finished

/-- `update_info`: plain assignment to the shared `self._info` slot. -/
def update_info {D : Type} (m : ZeroconfService D) (d : D) : ZeroconfService D :=
  { m with info := d }

/-- `start`: returns (with a logged notice) if the thread is alive;
otherwise calls `Thread.start()`, which spawns the loop when the thread
was never started and raises `RuntimeError` when it already ran. -/
def start {D : Type} (m : ZeroconfService D) : Except PyErr (ZeroconfService D) :=
  if is_alive m then .ok m
  else if m.thread_started then .error .runtimeError
  else .ok { m with thread_started := true, spawns := m.spawns + 1 }

/-- `stop`: sets the stop event and joins the thread.  `Thread.join()`
before `start()` raises `RuntimeError`; on a started thread it blocks
until the loop (which observes the now-set event at its wait point)
exits, so the post-state has the thread finished.  (On the raising path
Python sets the event before the raise; no claim depends on the state
carried by an escaping exception, so the error return carries none.) -/
def stop {D : Type} (m : ZeroconfService D) : Except PyErr (ZeroconfService D) :=
  if m.thread_started then
    .ok { m with stop_event := true, thread_finished := true }
  else .error .runtimeError

/-- `close`: `stop()` then `Zeroconf.close()`. -/
def close {D : Type} (m : ZeroconfService D) : Except PyErr (ZeroconfService D) :=
  (stop m).map fun m' => { m' with zeroconf_closed := true }

/-- Thread state after the loop function returns or raises: either way
the thread has exited. -/
def afterLoopExit {D : Type} (m : ZeroconfService D) : ZeroconfService D :=
  { m with thread_finished := true }

/-- Caller-side operations on a manager instance. -/
inductive ServiceOp (D : Type) : Type where
  | start
  | stop
  | close
  | update (d : D)

/-- Run one caller operation. -/
def runOp {D : Type} (m : ZeroconfService D) :
    ServiceOp D → Except PyErr (ZeroconfService D)
  | .start => start m
  | .stop => stop m
  | .close => close m
  | .update d => .ok (update_info m d)

/-- Run a sequence of caller operations, stopping at the first escaping
exception. -/
def runOps {D : Type} (m : ZeroconfService D) :
    List (ServiceOp D) → Except PyErr (ZeroconfService D)
  | [] => .ok m
  | op :: rest =>
      match runOp m op with
      | .error e => .error e
      | .ok m' => runOps m' rest

end ZeroconfService

/-! ### Helper lemmas about the loop trace -/

/-- With a never-failing engine the loop does not crash, and its engine
calls are exactly the cycle pattern of the descriptor pairs it read,
closed by the final unregister at slot read `t + 2*n`. -/
theorem service_loop_no_fail_shape {D : Type} (info : Nat → D) :
    ∀ n t k : Nat,
      (service_loop (fun _ => false) info n t k).2 = false ∧
      engineCalls (service_loop (fun _ => false) info n t k).1 =
        cyclePattern (pairsFrom info n t) (info (t + 2 * n)) := by
  intro n
  induction n with
  | zero =>
      intro t k
      exact ⟨rfl, rfl⟩
  | succ n ih =>
      intro t k
      have h2 : t + 2 + 2 * n = t + 2 * (n + 1) := by omega
      constructor
      · simpa [service_loop] using (ih (t + 2) (k + 2)).1
      · have := (ih (t + 2) (k + 2)).2
        rw [h2] at this
        simpa [service_loop, engineCalls, pairsFrom, cyclePattern] using this

/-- The pairs of `n + 1` cycles are the pairs of the first `n` cycles
followed by the last cycle's pair. -/
theorem pairsFrom_append {D : Type} (info : Nat → D) :
    ∀ n t : Nat,
      pairsFrom info (n + 1) t =
        pairsFrom info n t ++ [(info (t + 2 * n), info (t + 2 * n + 1))] := by
  intro n
  induction n with
  | zero => intro t; rfl
  | succ n ih =>
      intro t
      have h2 : t + 2 + 2 * n = t + 2 * (n + 1) := by omega
      calc pairsFrom info (n + 2) t
          = (info t, info (t + 1)) :: pairsFrom info (n + 1) (t + 2) := rfl
        _ = (info t, info (t + 1)) ::
              (pairsFrom info n (t + 2) ++
                [(info (t + 2 + 2 * n), info (t + 2 + 2 * n + 1))]) := by rw [ih]
        _ = pairsFrom info (n + 1) t ++
              [(info (t + 2 * (n + 1)), info (t + 2 * (n + 1) + 1))] := by
            rw [h2]; rfl

/-- `cyclePattern` splits around an append of pair lists. -/
theorem cyclePattern_append {D : Type} (ys : List (D × D)) (dLast : D) :
    ∀ xs : List (D × D),
      cyclePattern (xs ++ ys) dLast = flatCycles xs ++ cyclePattern ys dLast := by
  intro xs
  induction xs with
  | nil => rfl
  | cons p rest ih => cases p; simp [cyclePattern, flatCycles, ih]

/-- A cycle pattern whose pairs are all equal-component satisfies the
same-descriptor-cycles shape. -/
theorem sameDesc_of_pairs {D : Type} [DecidableEq D] (dLast : D) :
    ∀ ds : List (D × D), (∀ p ∈ ds, p.1 = p.2) →
      sameDescCyclesThenFinal (cyclePattern ds dLast) = true := by
  intro ds
  induction ds with
  | nil => intro _; rfl
  | cons p rest ih =>
      intro h
      cases p with
      | mk a b =>
          have hab : a = b := h (a, b) (List.mem_cons_self _ _)
          have hrest := ih fun q hq => h q (List.mem_cons_of_mem _ hq)
          simp [cyclePattern, sameDescCyclesThenFinal, hab, hrest]

/-- If the slot never changes between a cycle's unregister and its
register (reads `2*i` and `2*i + 1` agree for every `i`), the pairs read
by cycles starting at an even read index have equal components. -/
theorem pairsFrom_eq_components {D : Type} (info : Nat → D)
    (h : ∀ i, info (2 * i + 1) = info (2 * i)) :
    ∀ n i0 : Nat, ∀ p ∈ pairsFrom info n (2 * i0), p.1 = p.2 := by
  intro n
  induction n with
  | zero => intro i0 p hp; cases hp
  | succ n ih =>
      intro i0 p hp
      have hstep : 2 * i0 + 2 = 2 * (i0 + 1) := by omega
      rcases List.mem_cons.mp hp with hhead | htail
      · subst hhead; exact (h i0).symm
      · rw [hstep] at htail
        exact ih (i0 + 1) p htail

/-- The loop trace depends on the slot only through its values at reads
from the current read index on. -/
theorem service_loop_congr {D : Type} (fail : Nat → Bool) (info info' : Nat → D) :
    ∀ n t k : Nat, (∀ s, t ≤ s → info s = info' s) →
      service_loop fail info n t k = service_loop fail info' n t k := by
  intro n
  induction n with
  | zero =>
      intro t k h
      simp [service_loop, h t (Nat.le_refl t)]
  | succ n ih =>
      intro t k h
      have h0 : info t = info' t := h t (Nat.le_refl t)
      have h1 : info (t + 1) = info' (t + 1) := h (t + 1) (by omega)
      have hr : service_loop fail info n (t + 2) (k + 2) =
          service_loop fail info' n (t + 2) (k + 2) :=
        ih (t + 2) (k + 2) fun s hs => h s (by omega)
      simp [service_loop, h0, h1, hr]

/-- In a constant-slot run, every register call carries that constant. -/
theorem registerCall_mem_const {D : Type} (d2 : D) :
    ∀ n t k d, LoopEvent.registerCall d ∈
        (service_loop (fun _ => false) (fun _ => d2) n t k).1 → d = d2 := by
  intro n
  induction n with
  | zero =>
      intro t k d hd
      simp [service_loop] at hd
  | succ n ih =>
      intro t k d hd
      simp only [service_loop, Bool.false_eq_true, if_false, List.mem_cons] at hd
      rcases hd with h | h | h | h
      · cases h
      · cases h
      · exact (LoopEvent.registerCall.injEq _ _ ▸ h)
      · exact ih (t + 2) (k + 2) d h

/-- Ghost invariant: the spawn counter is 1 when the thread was started
and 0 otherwise, preserved by every successful operation sequence. -/
theorem spawns_invariant {D : Type} :
    ∀ (ops : List (ZeroconfService.ServiceOp D)) (m m' : ZeroconfService D),
      m.spawns = (if m.thread_started then 1 else 0) →
      ZeroconfService.runOps m ops = .ok m' →
      m'.spawns = (if m'.thread_started then 1 else 0) := by
  intro ops
  induction ops with
  | nil =>
      intro m m' hinv hrun
      simp only [ZeroconfService.runOps] at hrun
      cases hrun
      exact hinv
  | cons op rest ih =>
      intro m m' hinv hrun
      simp only [ZeroconfService.runOps] at hrun
      cases op with
      | start =>
          simp only [ZeroconfService.runOp, ZeroconfService.start,
            ZeroconfService.is_alive] at hrun
          by_cases ha : (m.thread_started && !m.thread_finished) = true
          · rw [if_pos ha] at hrun
            exact ih m m' hinv hrun
          · rw [if_neg ha] at hrun
            by_cases hs : m.thread_started = true
            · rw [if_pos hs] at hrun
              cases hrun
            · rw [if_neg hs] at hrun
              refine ih _ m' ?_ hrun
              simp only [Bool.not_eq_true] at hs
              simp [hinv, hs]
      | stop =>
          simp only [ZeroconfService.runOp, ZeroconfService.stop] at hrun
          by_cases hs : m.thread_started = true
          · rw [if_pos hs] at hrun
            refine ih _ m' ?_ hrun
            simpa [hs] using hinv
          · rw [if_neg hs] at hrun
            cases hrun
      | close =>
          simp only [ZeroconfService.runOp, ZeroconfService.close,
            ZeroconfService.stop] at hrun
          by_cases hs : m.thread_started = true
          · rw [if_pos hs] at hrun
            simp only [Except.map] at hrun
            refine ih _ m' ?_ hrun
            simpa [hs] using hinv
          · rw [if_neg hs] at hrun
            simp only [Except.map] at hrun
            cases hrun
      | update d =>
          simp only [ZeroconfService.runOp, ZeroconfService.update_info] at hrun
          refine ih _ m' ?_ hrun
          simpa using hinv


/-- The module-level default name is a nonempty string, hence truthy. -/
theorem append_suffix_isEmpty_false (H : String) :
    (H ++ "._http._tcp.local.").isEmpty = false := by
  rw [Bool.eq_false_iff]
  intro h
  rw [String.isEmpty_iff] at h
  have hl := congrArg String.length h
  rw [String.length_append] at hl
  have h18 : "._http._tcp.local.".length = 18 := by decide
  have h0 : "".length = 0 := by decide
  omega

/-! ### Claim C1 -/

/-- C1, counterexample.  The claim says that in every execution the engine
calls form cycles of `unregister(d)` immediately followed by `register(d)`
for the same descriptor `d`.  `_service_loop` reads `self._info` afresh at
each call site (lines 51 and 52), so in an execution where `update_info`
swaps the slot between a cycle's unregister and its register the two calls
use different descriptors.  Concretely, with slot history `info s = s`
(slot swapped between every two reads) and the stop signal observed after
one cycle, the call sequence is `unregister 0, register 1, unregister 2`,
which is not a same-descriptor cycle sequence. -/
theorem c1_counterexample :
    sameDescCyclesThenFinal (engineCalls (refreshTrace (fun s => s) 1)) = false := by
  rfl

/-- C1 (amended): the engine calls of every execution decompose into
cycles of an unregister immediately followed by a register — each call
using the slot value at its own read — ended by exactly one final
unregister after the stop signal, with no register after it; and in every
execution in which the slot is not swapped between a cycle's unregister
and its register (reads `2*i` and `2*i+1` agree), the cycles pair the
same descriptor, as the claim states. -/
theorem c1_refresh_cycle_decomposition {D : Type} [DecidableEq D]
    (info : Nat → D) (n : Nat) :
    engineCalls (refreshTrace info n) =
      cyclePattern (pairsFrom info n 0) (info (2 * n))
    ∧ ((∀ i, info (2 * i + 1) = info (2 * i)) →
        sameDescCyclesThenFinal (engineCalls (refreshTrace info n)) = true) := by
  have hshape : engineCalls (refreshTrace info n) =
      cyclePattern (pairsFrom info n 0) (info (2 * n)) := by
    have h0 := (service_loop_no_fail_shape info n 0 0).2
    rw [Nat.zero_add] at h0
    exact h0
  refine ⟨hshape, fun h => ?_⟩
  rw [hshape]
  exact sameDesc_of_pairs _ _ (pairsFrom_eq_components info h n 0)

/-- C1 witness: the amended theorem applied to a constant-slot execution
with two cycles. -/
theorem c1_refresh_cycle_decomposition_witness :
    sameDescCyclesThenFinal (engineCalls (refreshTrace (fun _ => (5 : Nat)) 2)) = true :=
  (c1_refresh_cycle_decomposition (fun _ => (5 : Nat)) 2).2 (fun _ => rfl)

/-! ### Claim C2 -/

/-- C2, counterexample.  The claim says `load_config` never raises past
its boundary for any input.  The `except` clauses catch only
`FileNotFoundError`, `TypeError` and `json.JSONDecodeError`; a file whose
bytes are not valid UTF-8 makes `Path.read_text("utf-8")` raise
`UnicodeDecodeError`, which none of them catches, so it escapes. -/
theorem c2_counterexample :
    isOkB (load_config "h" FileContent.undecodable) = false := by
  rfl

/-- C2 (amended): for every input that decodes as UTF-8 text,
`load_config` returns a usable configuration and never raises; in
particular, when the file exists and decodes but fails to parse
(`JSONDecodeError`) or contains fields of wrong shape (`TypeError` from
`ServiceConfig(**d)`), it returns the in-memory defaults without raising
and without overwriting the source file.  A non-UTF-8 file is the one
exception: `UnicodeDecodeError` escapes. -/
theorem c2_load_config_total_when_decodable (H : String) (fc : FileContent)
    (hfc : fc ≠ FileContent.undecodable) :
    isOkB (load_config H fc) = true
    ∧ (∀ raw, fc = FileContent.malformed raw →
        load_config H fc = .ok (ServiceConfig.default H, .unchanged))
    ∧ (∀ v, fc = FileContent.parsed v →
        isOkB (ServiceConfig.ofKwargs H v) = false →
        load_config H fc = .ok (ServiceConfig.default H, .unchanged)) := by
  cases fc with
  | absent =>
      refine ⟨rfl, ?_, ?_⟩
      · intro raw h; cases h
      · intro v h; cases h
  | undecodable => exact absurd rfl hfc
  | malformed raw =>
      refine ⟨rfl, ?_, ?_⟩
      · intro raw' _; rfl
      · intro v h; cases h
  | parsed v =>
      refine ⟨?_, ?_, ?_⟩
      · cases hk : ServiceConfig.ofKwargs H v with
        | ok c => simp [load_config, hk, isOkB]
        | error e => simp [load_config, hk, isOkB]
      · intro raw h; cases h
      · intro v' hv hko
        cases hv
        cases hk : ServiceConfig.ofKwargs H v with
        | ok c => rw [hk] at hko; cases hko
        | error e => simp [load_config, hk]

/-- C2 witness: the amended theorem applied to the absent-file input. -/
theorem c2_load_config_total_witness :
    isOkB (load_config "h" FileContent.absent) = true :=
  (c2_load_config_total_when_decodable "h" FileContent.absent
    (fun h => FileContent.noConfusion h)).1

/-! ### Claim C3 -/

/-- C3 (confirmed): loading from a non-existent path returns the default
configuration (type `_http._tcp.local.`, name `<H>._http._tcp.local.`,
port 8080, empty properties, interval 60) and writes exactly that
structure back, pretty-printed with `json.dumps(..., indent=4)`; loading
from a path with malformed JSON returns the same defaults and leaves the
file unchanged; loading `{"port": 9090}` returns port 9090 with every
other field at its default, leaving the file unchanged. -/
theorem c3_load_config_cases (H raw : String) :
    load_config H FileContent.absent =
      .ok (ServiceConfig.default H,
           .written (asdictVal (ServiceConfig.default H)) 4)
    ∧ load_config H (FileContent.malformed raw) =
        .ok (ServiceConfig.default H, .unchanged)
    ∧ load_config H (FileContent.parsed (PyVal.dict [("port", PyVal.int 9090)])) =
        .ok ({ ServiceConfig.default H with port := PyVal.int 9090 }, .unchanged) := by
  exact ⟨rfl, rfl, rfl⟩

/-! ### Claim C4 -/

/-- C4, counterexample.  The claim says that when the name field is absent
the constructed name equals `H ++ "." ++ serviceType` for the loaded type.
In the code the dataclass default for `name` is computed at module load as
`f"{socket.gethostname()}._http._tcp.local."`; that default is a nonempty
(truthy) string, so `main`'s fallback `config.name if config.name else
f"{hostname}.{config.type}"` keeps it.  With hostname `H` and the config
file `{"type": "_foo._tcp.local."}` (name absent), the constructed name is
`H._http._tcp.local.`, not `H._foo._tcp.local.` as the claim requires. -/
theorem c4_counterexample :
    mainName "H" (FileContent.parsed
        (PyVal.dict [("type", PyVal.str "_foo._tcp.local.")])) =
      .ok (PyVal.str "H._http._tcp.local.")
    ∧ "H._http._tcp.local." ≠ "H._foo._tcp.local." := by
  refine ⟨rfl, ?_⟩
  decide

/-- C4 (amended): for a structurally valid configuration, when the name
field is present and empty (falsy) the constructed descriptor name equals
`H ++ "." ++ serviceType` for the loaded (possibly non-default) type; but
when the name field is absent the dataclass default applies and the name
is `H ++ "._http._tcp.local."` regardless of the loaded type. -/
theorem c4_name_default (H : String) (kvs : List (String × PyVal))
    (hkeys : kvs.all (fun kv => fieldNames.contains kv.1) = true) :
    (List.lookup "name" kvs = some (PyVal.str "") →
      mainName H (FileContent.parsed (PyVal.dict kvs)) =
        .ok (PyVal.str (H ++ "." ++
          pyStr (lookupD kvs "type" (PyVal.str "_http._tcp.local.")))))
    ∧ (List.lookup "name" kvs = Option.none →
      mainName H (FileContent.parsed (PyVal.dict kvs)) =
        .ok (PyVal.str (H ++ "._http._tcp.local."))) := by
  have hok : ServiceConfig.ofKwargs H (PyVal.dict kvs) = Except.ok
      { type := lookupD kvs "type" (PyVal.str "_http._tcp.local.")
      , name := lookupD kvs "name" (PyVal.str (H ++ "._http._tcp.local."))
      , port := lookupD kvs "port" (PyVal.int 8080)
      , properties := lookupD kvs "properties" (PyVal.dict [])
      , interval := lookupD kvs "interval" (PyVal.int 60) } := by
    simp only [ServiceConfig.ofKwargs]
    rw [if_pos hkeys]
  constructor
  · intro hname
    have hn : lookupD kvs "name" (PyVal.str (H ++ "._http._tcp.local.")) =
        PyVal.str "" := by
      simp [lookupD, hname]
    simp only [mainName, load_config, hok, hn]
    rw [if_neg (by decide)]
  · intro hname
    have hn : lookupD kvs "name" (PyVal.str (H ++ "._http._tcp.local.")) =
        PyVal.str (H ++ "._http._tcp.local.") := by
      simp [lookupD, hname]
    simp only [mainName, load_config, hok, hn]
    rw [if_pos (by simp [pyTruthy, append_suffix_isEmpty_false])]

/-- C4 witness: the amended theorem on `{"type": "_foo._tcp.local.",
"name": ""}` with hostname `H` yields `H._foo._tcp.local.`. -/
theorem c4_name_default_witness :
    mainName "H" (FileContent.parsed (PyVal.dict
        [("type", PyVal.str "_foo._tcp.local."), ("name", PyVal.str "")])) =
      .ok (PyVal.str "H._foo._tcp.local.") :=
  (c4_name_default "H"
      [("type", PyVal.str "_foo._tcp.local."), ("name", PyVal.str "")]
      (by rfl)).1 (by rfl)

/-! ### Claim C5 -/

/-- C5, counterexample.  The claim says a failing engine call is "logged
at error level".  `_service_loop` has no exception handling and the code
never calls the logger at error level: in the execution where the first
unregister raises, the loop dies (second component `true`) and the trace
contains no error-level log record — the traceback goes to the
interpreter's default thread excepthook, outside the logging system. -/
theorem c5_counterexample :
    (service_loop (fun j => j == 0) (fun _ => (0 : Nat)) 1 0 0).2 = true
    ∧ LoopEvent.logError ∉ (service_loop (fun j => j == 0) (fun _ => (0 : Nat)) 1 0 0).1 := by
  refine ⟨rfl, ?_⟩
  decide

/-- C5 (amended): a register/unregister failure is not swallowed — the
unhandled exception ends the background loop at once (the trace stops at
the failing engine call, with no further cycle), and a thread whose loop
function has exited is no longer alive, so `is_alive()` subsequently
returns false; but no error-level log record is produced in any
execution. -/
theorem c5_engine_failure_fatal_unlogged :
    (∀ (D : Type) (fail : Nat → Bool) (info : Nat → D) (n t k : Nat),
        LoopEvent.logError ∉ (service_loop fail info n t k).1
        ∧ ((service_loop fail info n t k).2 = true →
            ∃ (pre : List (LoopEvent D)) (d : D),
              (service_loop fail info n t k).1 = pre ++ [LoopEvent.unregisterCall d]
              ∨ (service_loop fail info n t k).1 = pre ++ [LoopEvent.registerCall d]))
    ∧ (∀ (D : Type) (m : ZeroconfService D),
        ZeroconfService.is_alive (ZeroconfService.afterLoopExit m) = false) := by
  constructor
  · intro D fail info n
    induction n with
    | zero =>
        intro t k
        constructor
        · simp [service_loop]
        · intro _
          exact ⟨([] : List (LoopEvent D)), info t, Or.inl (by simp [service_loop])⟩
    | succ n ih =>
        intro t k
        by_cases h0 : fail k = true
        · constructor
          · simp [service_loop, h0]
          · intro _
            exact ⟨([LoopEvent.logUpdate] : List (LoopEvent D)), info t,
              Or.inl (by simp [service_loop, h0])⟩
        · by_cases h1 : fail (k + 1) = true
          · constructor
            · simp [service_loop, h0, h1]
            · intro _
              exact ⟨([LoopEvent.logUpdate, LoopEvent.unregisterCall (info t)] :
                  List (LoopEvent D)),
                info (t + 1), Or.inr (by simp [service_loop, h0, h1])⟩
          · obtain ⟨hmem, hcrash⟩ := ih (t + 2) (k + 2)
            constructor
            · simp [service_loop, h0, h1, List.mem_cons, hmem]
            · intro hc
              have hc' : (service_loop fail info n (t + 2) (k + 2)).2 = true := by
                simpa [service_loop, h0, h1] using hc
              obtain ⟨pre, d, hor⟩ := hcrash hc'
              refine ⟨LoopEvent.logUpdate :: LoopEvent.unregisterCall (info t) ::
                LoopEvent.registerCall (info (t + 1)) :: pre, d, ?_⟩
              rcases hor with h | h
              · exact Or.inl (by simp [service_loop, h0, h1, h])
              · exact Or.inr (by simp [service_loop, h0, h1, h])
  · intro D m
    simp [ZeroconfService.is_alive, ZeroconfService.afterLoopExit]

/-- C5 witness: the amended theorem on an execution whose second engine
call (the first register) raises. -/
theorem c5_engine_failure_fatal_unlogged_witness :
    LoopEvent.logError ∉ (service_loop (fun j => j == 1) (fun _ => (0 : Nat)) 1 0 0).1
    ∧ ∃ (pre : List (LoopEvent Nat)) (d : Nat),
        (service_loop (fun j => j == 1) (fun _ => (0 : Nat)) 1 0 0).1 =
            pre ++ [LoopEvent.unregisterCall d]
        ∨ (service_loop (fun j => j == 1) (fun _ => (0 : Nat)) 1 0 0).1 =
            pre ++ [LoopEvent.registerCall d] :=
  ⟨(c5_engine_failure_fatal_unlogged.1 Nat (fun j => j == 1) (fun _ => (0 : Nat)) 1 0 0).1,
   (c5_engine_failure_fatal_unlogged.1 Nat (fun j => j == 1) (fun _ => (0 : Nat)) 1 0 0).2 rfl⟩

/-! ### Claim C6 -/

/-- C6, counterexample.  The claim says `start()` is a no-op that never
raises in every state past Idle, including already Stopped.  The guard in
`start` checks only `Thread.is_alive()`; after `stop()` the thread has
exited, so a further `start()` reaches `Thread.start()` on a finished
thread, which raises `RuntimeError`. -/
theorem c6_counterexample :
    ZeroconfService.runOps ({ info := (0 : Nat) } : ZeroconfService Nat)
      [ZeroconfService.ServiceOp.start, ZeroconfService.ServiceOp.stop,
       ZeroconfService.ServiceOp.start] = .error PyErr.runtimeError := by
  rfl

/-- C6 (amended): while the background loop is alive, `start()` is a
no-op (with a logged notice) that never raises and changes nothing; and
over every successful operation sequence from a fresh manager at most
one background loop is ever spawned.  Once the manager is Stopped,
however, a further `start()` raises `RuntimeError` instead of being a
no-op. -/
theorem c6_start_idempotent_while_alive :
    (∀ (D : Type) (m : ZeroconfService D),
        ZeroconfService.is_alive m = true → ZeroconfService.start m = .ok m)
    ∧ (∀ (D : Type) (d : D) (ops : List (ZeroconfService.ServiceOp D))
        (m' : ZeroconfService D),
        ZeroconfService.runOps ({ info := d } : ZeroconfService D) ops = .ok m' →
        m'.spawns ≤ 1) := by
  constructor
  · intro D m h
    simp [ZeroconfService.start, h]
  · intro D d ops m' hrun
    have h := spawns_invariant ops ({ info := d } : ZeroconfService D) m' rfl hrun
    rw [h]
    split <;> omega

/-- C6 witness: the amended theorem on a running manager and on the
one-operation sequence `[start]`. -/
theorem c6_start_idempotent_witness :
    ZeroconfService.start
        ({ info := 0, thread_started := true, spawns := 1 } : ZeroconfService Nat) =
      .ok { info := 0, thread_started := true, spawns := 1 }
    ∧ ({ info := 0, thread_started := true, spawns := 1 } : ZeroconfService Nat).spawns ≤ 1 :=
  ⟨c6_start_idempotent_while_alive.1 Nat _ rfl,
   c6_start_idempotent_while_alive.2 Nat 0 [ZeroconfService.ServiceOp.start] _ rfl⟩

/-! ### Claim C7 -/

/-- C7 (confirmed): on a started manager, `stop()` sets the stop signal
and joins — the join blocks until the background loop has observed the
signal at its wait point and exited, so the post-state has the thread
finished and `is_alive()` false — and every subsequent `stop()` or
`close()` is a no-op that produces no error and leaves the manager
Stopped. -/
theorem c7_stop_close_idempotent {D : Type} (m : ZeroconfService D)
    (h : m.thread_started = true) :
    ∃ m' : ZeroconfService D,
      ZeroconfService.stop m = .ok m'
      ∧ m'.stop_event = true
      ∧ m'.thread_finished = true
      ∧ ZeroconfService.is_alive m' = false
      ∧ ZeroconfService.stop m' = .ok m'
      ∧ ZeroconfService.close m' = .ok { m' with zeroconf_closed := true }
      ∧ ZeroconfService.stop { m' with zeroconf_closed := true } =
          .ok { m' with zeroconf_closed := true }
      ∧ ZeroconfService.close { m' with zeroconf_closed := true } =
          .ok { m' with zeroconf_closed := true } := by
  refine ⟨{ m with stop_event := true, thread_finished := true },
    ?_, rfl, rfl, ?_, ?_, ?_, ?_, ?_⟩
  · simp [ZeroconfService.stop, h]
  · simp [ZeroconfService.is_alive]
  · simp [ZeroconfService.stop, h]
  · simp [ZeroconfService.close, ZeroconfService.stop, h, Except.map]
  · simp [ZeroconfService.stop, h]
  · simp [ZeroconfService.close, ZeroconfService.stop, h, Except.map]

/-- C7 witness: the theorem applied to a freshly started manager. -/
theorem c7_stop_close_idempotent_witness :
    ∃ m' : ZeroconfService Nat,
      ZeroconfService.stop ({ info := 0, thread_started := true } : ZeroconfService Nat) =
        .ok m'
      ∧ m'.stop_event = true
      ∧ m'.thread_finished = true
      ∧ ZeroconfService.is_alive m' = false
      ∧ ZeroconfService.stop m' = .ok m'
      ∧ ZeroconfService.close m' = .ok { m' with zeroconf_closed := true }
      ∧ ZeroconfService.stop { m' with zeroconf_closed := true } =
          .ok { m' with zeroconf_closed := true }
      ∧ ZeroconfService.close { m' with zeroconf_closed := true } =
          .ok { m' with zeroconf_closed := true } :=
  c7_stop_close_idempotent ({ info := 0, thread_started := true } : ZeroconfService Nat) rfl

/-! ### Claim C8 -/

/-- C8 (confirmed): `update_info` swaps only the stored descriptor — every
other piece of manager state, in particular the engine handle, is
untouched, and no engine call is made — and once the shared slot holds
`d2` from the loop's next slot read on, the rest of the execution is the
execution with constant slot `d2`; in particular every register call it
performs from that point uses `d2`, not the descriptor active at
`start()` time.  (A cycle that already read the slot before the swap is
not required to reflect it: the hypothesis constrains reads from index
`t` on only.) -/
theorem c8_update_info_frame :
    (∀ (D : Type) (m : ZeroconfService D) (d : D),
        (ZeroconfService.update_info m d).info = d
        ∧ (ZeroconfService.update_info m d).stop_event = m.stop_event
        ∧ (ZeroconfService.update_info m d).thread_started = m.thread_started
        ∧ (ZeroconfService.update_info m d).thread_finished = m.thread_finished
        ∧ (ZeroconfService.update_info m d).zeroconf_closed = m.zeroconf_closed
        ∧ (ZeroconfService.update_info m d).spawns = m.spawns)
    ∧ (∀ (D : Type) (info : Nat → D) (d2 : D) (n t : Nat),
        (∀ s, t ≤ s → info s = d2) →
        (service_loop (fun _ => false) info n t 0).1 =
          (service_loop (fun _ => false) (fun _ => d2) n t 0).1
        ∧ ∀ d, LoopEvent.registerCall d ∈ (service_loop (fun _ => false) info n t 0).1 →
            d = d2) := by
  constructor
  · intro D m d
    exact ⟨rfl, rfl, rfl, rfl, rfl, rfl⟩
  · intro D info d2 n t h
    have hcong := service_loop_congr (fun _ => false) info (fun _ => d2) n t 0
      (fun s hs => h s hs)
    constructor
    · rw [hcong]
    · intro d hd
      rw [hcong] at hd
      exact registerCall_mem_const d2 n t 0 d hd

/-- C8 witness: the theorem applied to a concrete manager and to a
constant-slot execution. -/
theorem c8_update_info_frame_witness :
    (ZeroconfService.update_info ({ info := 0 } : ZeroconfService Nat) 5).info = 5
    ∧ (service_loop (fun _ => false) (fun _ => (7 : Nat)) 2 0 0).1 =
        (service_loop (fun _ => false) (fun _ => (7 : Nat)) 2 0 0).1 :=
  ⟨(c8_update_info_frame.1 Nat ({ info := 0 } : ZeroconfService Nat) 5).1,
   (c8_update_info_frame.2 Nat (fun _ => 7) 7 2 0 (fun _ _ => rfl)).1⟩

/-! ### Claim C9 -/

/-- C9, counterexample.  The claim says every loaded pair satisfies the
data-model constraints (port in 1–65535, interval > 0).  `load_config`
performs no validation: the structurally valid file `{"interval": 0}` is
accepted verbatim, producing interval 0, which violates the constraint. -/
theorem c9_counterexample :
    load_config "h" (FileContent.parsed (PyVal.dict [("interval", PyVal.int 0)])) =
      .ok ({ ServiceConfig.default "h" with interval := PyVal.int 0 },
           FileOutcome.unchanged)
    ∧ intervalOk (PyVal.int 0) = false := by
  exact ⟨rfl, rfl⟩

/-- C9 (amended): a configuration produced from a missing, unparseable or
mis-shaped file is the default one and satisfies the constraints (port
8080 in 1–65535, interval 60 > 0); but a structurally valid file's port
and interval are adopted verbatim with no validation, so for such inputs
the constraints hold only if the file's own values satisfy them. -/
theorem c9_constraints_only_for_defaults (H : String) (fc : FileContent)
    (c : ServiceConfig) (fo : FileOutcome)
    (h : load_config H fc = .ok (c, fo)) :
    (portOk c.port = true ∧ intervalOk c.interval = true)
    ∨ ∃ kvs, fc = FileContent.parsed (PyVal.dict kvs)
        ∧ c.port = lookupD kvs "port" (PyVal.int 8080)
        ∧ c.interval = lookupD kvs "interval" (PyVal.int 60) := by
  cases fc with
  | absent =>
      simp only [load_config, Except.ok.injEq, Prod.mk.injEq] at h
      obtain ⟨hc, -⟩ := h
      subst hc
      exact Or.inl ⟨rfl, rfl⟩
  | undecodable => simp [load_config] at h
  | malformed raw =>
      simp only [load_config, Except.ok.injEq, Prod.mk.injEq] at h
      obtain ⟨hc, -⟩ := h
      subst hc
      exact Or.inl ⟨rfl, rfl⟩
  | parsed v =>
      cases v with
      | dict kvs =>
          by_cases hall : (kvs.all fun kv => fieldNames.contains kv.1) = true
          · simp only [load_config, ServiceConfig.ofKwargs, if_pos hall,
              Except.ok.injEq, Prod.mk.injEq] at h
            obtain ⟨hc, -⟩ := h
            subst hc
            exact Or.inr ⟨kvs, rfl, rfl, rfl⟩
          · simp only [load_config, ServiceConfig.ofKwargs, if_neg hall,
              Except.ok.injEq, Prod.mk.injEq] at h
            obtain ⟨hc, -⟩ := h
            subst hc
            exact Or.inl ⟨rfl, rfl⟩
      | str s =>
          simp only [load_config, ServiceConfig.ofKwargs, Except.ok.injEq,
            Prod.mk.injEq] at h
          obtain ⟨hc, -⟩ := h
          subst hc
          exact Or.inl ⟨rfl, rfl⟩
      | int n =>
          simp only [load_config, ServiceConfig.ofKwargs, Except.ok.injEq,
            Prod.mk.injEq] at h
          obtain ⟨hc, -⟩ := h
          subst hc
          exact Or.inl ⟨rfl, rfl⟩
      | bool b =>
          simp only [load_config, ServiceConfig.ofKwargs, Except.ok.injEq,
            Prod.mk.injEq] at h
          obtain ⟨hc, -⟩ := h
          subst hc
          exact Or.inl ⟨rfl, rfl⟩
      | none =>
          simp only [load_config, ServiceConfig.ofKwargs, Except.ok.injEq,
            Prod.mk.injEq] at h
          obtain ⟨hc, -⟩ := h
          subst hc
          exact Or.inl ⟨rfl, rfl⟩
      | list xs =>
          simp only [load_config, ServiceConfig.ofKwargs, Except.ok.injEq,
            Prod.mk.injEq] at h
          obtain ⟨hc, -⟩ := h
          subst hc
          exact Or.inl ⟨rfl, rfl⟩

/-- C9 witness: the amended theorem applied to the absent-file load. -/
theorem c9_constraints_witness :
    (portOk (ServiceConfig.default "h").port = true
      ∧ intervalOk (ServiceConfig.default "h").interval = true)
    ∨ ∃ kvs, FileContent.absent = FileContent.parsed (PyVal.dict kvs)
        ∧ (ServiceConfig.default "h").port = lookupD kvs "port" (PyVal.int 8080)
        ∧ (ServiceConfig.default "h").interval = lookupD kvs "interval" (PyVal.int 60) :=
  c9_constraints_only_for_defaults "h" FileContent.absent (ServiceConfig.default "h")
    (FileOutcome.written (asdictVal (ServiceConfig.default "h")) 4) rfl

/-! ### Claim C10 -/

/-- C10 (confirmed): the final unregister on shutdown passes the
descriptor stored at that moment.  In every execution whose last cycle's
register reads `d1` (slot read `2*n + 1`) and where the slot holds `d2`
by the time the stop signal has been observed and the final unregister
reads it (slot read `2*n + 2` — e.g. `update_info(d2)` ran in between),
the engine calls end with `register d1` immediately followed by the final
`unregister d2`; for distinct descriptors no `unregister d1` occurs after
that last register, so the `d1` registration is never withdrawn. -/
theorem c10_final_unregister_current {D : Type} (info : Nat → D) (n : Nat)
    (d1 d2 : D) (h1 : info (2 * n + 1) = d1) (h2 : info (2 * n + 2) = d2)
    (hne : d1 ≠ d2) :
    ∃ pre : List (LoopEvent D),
      engineCalls (refreshTrace info (n + 1)) =
        pre ++ [LoopEvent.registerCall d1, LoopEvent.unregisterCall d2]
      ∧ LoopEvent.unregisterCall d1 ∉
          ([LoopEvent.registerCall d1, LoopEvent.unregisterCall d2] :
            List (LoopEvent D)) := by
  have hshape : engineCalls (refreshTrace info (n + 1)) =
      cyclePattern (pairsFrom info (n + 1) 0) (info (2 * (n + 1))) := by
    have h0 := (service_loop_no_fail_shape info (n + 1) 0 0).2
    rw [Nat.zero_add] at h0
    exact h0
  rw [pairsFrom_append, cyclePattern_append] at hshape
  have hsing : cyclePattern [(info (0 + 2 * n), info (0 + 2 * n + 1))]
      (info (2 * (n + 1))) =
      [LoopEvent.unregisterCall (info (2 * n)), LoopEvent.registerCall d1,
       LoopEvent.unregisterCall d2] := by
    simp only [cyclePattern]
    rw [show 0 + 2 * n = 2 * n from by omega]
    rw [show 2 * (n + 1) = 2 * n + 2 from by omega, h1, h2]
  rw [hsing] at hshape
  refine ⟨flatCycles (pairsFrom info n 0) ++ [LoopEvent.unregisterCall (info (2 * n))],
    ?_, ?_⟩
  · rw [hshape]
    simp [List.append_assoc]
  · simp [hne]

/-- C10 witness: the theorem on a one-cycle execution whose slot is
swapped from 10 to 20 after the cycle's register. -/
theorem c10_final_unregister_current_witness :
    ∃ pre : List (LoopEvent Nat),
      engineCalls (refreshTrace (fun s => if s < 2 then 10 else 20) 1) =
        pre ++ [LoopEvent.registerCall 10, LoopEvent.unregisterCall 20]
      ∧ LoopEvent.unregisterCall 10 ∉
          ([LoopEvent.registerCall 10, LoopEvent.unregisterCall 20] :
            List (LoopEvent Nat)) :=
  c10_final_unregister_current (fun s => if s < 2 then 10 else 20) 0 10 20 rfl rfl
    (by decide)
